import Mathlib

/-!
Verification of the three Eliza LangFlow adapter components against their
natural-language specification.

The development shallowly embeds the Python sources
`src/backend/base/langflow/components/eliza/eliza_memory.py`,
`eliza_memory_search.py` and `eliza_memory_store.py`:

* Python values appearing in the marshalled dictionaries are the inductive
  `PyVal`; Python dicts are association lists `PyDict`.
* The external, duck-typed memory object (`ElizaLongTermMemory`-shaped) is the
  structure `MemoryInstance`: each method it may or may not have is a field
  together with a `has_...` flag mirroring `hasattr`, and each external call
  may raise, modelled as `Except String` carrying the exception text.
* Every access on the external object is recorded as a `MemEvent`, so that
  claims about which members are probed/read/called can be stated as facts
  about the produced event trace.
* Component instance attributes (`self._search_results`, `self._memory_id`,
  ...) are explicit state records threaded through the adapter methods.

Modelling notes (deliberate abstractions, none load-bearing for the claims):
* Python `str()` of a non-string value and the float rendering `f"{x:.2f}"`
  are abstracted by `pyStr` / `pyFormat2`; no claim depends on their text.
* Floats (similarity scores, `relevance_score`) are modelled as `Rat`: the
  code only passes them through and never computes with them.
* `DictInput` metadata is modelled as a string-valued dict; the code only
  passes it through.
-/

namespace Eliza

/-- Python values occurring in the dictionaries this fragment builds or reads. -/
inductive PyVal where
  | vstr (s : String)
  | vnum (q : Rat)
  | vnone
  | vlistStr (l : List String)
  | vdictStr (d : List (String × String))
deriving DecidableEq, Repr

/-- A Python dict with string keys, as an association list (insertion order kept). -/
abbrev PyDict := List (String × PyVal)

/-- The string-valued dict supplied through a `DictInput` field. -/
abbrev Metadata := List (String × String)

/-- `d.get(k)` / `d.get(k, None)` on a Python dict. -/
def pyGet (d : PyDict) (k : String) : Option PyVal :=
  (d.find? (fun kv => kv.1 = k)).map (fun kv => kv.2)

/-- `d[k] = v` on a Python dict: overwrite in place, else append. -/
def pySet (d : PyDict) (k : String) (v : PyVal) : PyDict :=
  if (d.find? (fun kv => kv.1 = k)).isSome then
    d.map (fun kv => if kv.1 = k then (k, v) else kv)
  else d ++ [(k, v)]

/-- `d.update(m)` on a Python dict, for a string-valued update map. -/
def pyUpdate (d : PyDict) (m : Metadata) : PyDict :=
  m.foldl (fun acc kv => pySet acc kv.1 (PyVal.vstr kv.2)) d

/-- Abstraction of Python `str()` applied to a value (the exact rendering of
non-string values is irrelevant to every claim). -/
def pyStr : PyVal → String
  | .vstr s => s
  | .vnum q => toString q.num ++ "/" ++ toString q.den
  | .vnone => "None"
  | .vlistStr l => toString l
  | .vdictStr d => toString d

/-- Abstraction of the Python float rendering `f"{x:.2f}"` (its exact text is
irrelevant to every claim). -/
def pyFormat2 : PyVal → String
  | .vnum q => toString q.num ++ "/" ++ toString q.den
  | v => pyStr v

/-- The whitespace characters stripped by Python `str.strip()`. -/
def isPyWS (c : Char) : Bool :=
  c = ' ' || c = '\t' || c = '\n' || c = '\r' || c = Char.ofNat 11 || c = Char.ofNat 12

/-- `str.strip()` on the underlying character list. -/
def stripList (l : List Char) : List Char :=
  ((l.dropWhile isPyWS).reverse.dropWhile isPyWS).reverse

/-- Python `str.strip()`. -/
def pyStrip (s : String) : String := ⟨stripList s.data⟩

/-- Python `str.split(",")` on the underlying character list: `"".split(",")`
is `[""]`, and every comma starts a new piece. -/
def splitComma : List Char → List (List Char)
  | [] => [[]]
  | c :: rest =>
    match splitComma rest with
    | [] => [[]]
    | h :: t => if c = ',' then [] :: h :: t else (c :: h) :: t

/-- Python `s.split(",")`. -/
def pySplitComma (s : String) : List String :=
  (splitComma s.data).map String.mk

/-- The comma-list parsing used by all three adapters:
`[t.strip() for t in s.split(",") if t.strip()]` guarded by `if s:`. -/
def parseCommaList (s : String) : List String :=
  if s = "" then []
  else ((pySplitComma s).map pyStrip).filter (fun u => u ≠ "")

theorem head_dropWhile_false (p : Char → Bool) :
    ∀ (l : List Char) (a : Char) (t : List Char), l.dropWhile p = a :: t → p a = false := by
  intro l
  induction l with
  | nil => intro a t h; simp [List.dropWhile] at h
  | cons b u ih =>
    intro a t h
    by_cases hb : p b
    · rw [List.dropWhile_cons_of_pos hb] at h
      exact ih a t h
    · rw [List.dropWhile_cons_of_neg hb] at h
      cases h
      simpa using hb

theorem dropWhile_dropWhile (p : Char → Bool) (l : List Char) :
    (l.dropWhile p).dropWhile p = l.dropWhile p := by
  cases h : l.dropWhile p with
  | nil => rfl
  | cons a t =>
    have ha : p a = false := head_dropWhile_false p l a t h
    rw [List.dropWhile_cons_of_neg (by simp [ha])]

theorem dropWhile_stripList (l : List Char) :
    (stripList l).dropWhile isPyWS = stripList l := by
  unfold stripList
  cases h : l.dropWhile isPyWS with
  | nil => rfl
  | cons a t =>
    have ha : ¬(isPyWS a = true) := by
      simp [head_dropWhile_false isPyWS l a t h]
    rw [List.reverse_cons, List.dropWhile_append]
    by_cases he : (t.reverse.dropWhile isPyWS).isEmpty
    · rw [if_pos he]
      simp [ha]
    · rw [if_neg he]
      simp [ha]

theorem stripList_idem (l : List Char) : stripList (stripList l) = stripList l := by
  have h1 : stripList (stripList l) =
      ((stripList l).reverse.dropWhile isPyWS).reverse := by
    unfold stripList
    rw [show (((l.dropWhile isPyWS).reverse.dropWhile isPyWS).reverse).dropWhile isPyWS =
          ((l.dropWhile isPyWS).reverse.dropWhile isPyWS).reverse from
          dropWhile_stripList l]
  rw [h1]
  unfold stripList
  rw [List.reverse_reverse, dropWhile_dropWhile]

theorem pyStrip_idem (s : String) : pyStrip (pyStrip s) = pyStrip s := by
  unfold pyStrip
  exact congrArg String.mk (stripList_idem s.data)

/-- C4: in every adapter, the `memory_types` and `tags` inputs are parsed by
splitting the input string on commas, stripping surrounding whitespace from
each piece, and dropping pieces that are empty after stripping; an empty or
absent input yields the empty list, and no element of the resulting list is
empty or has surrounding whitespace. -/
theorem parse_comma_list_spec (s x : String) :
    parseCommaList s = ((pySplitComma s).map pyStrip).filter (fun u => u ≠ "")
    ∧ parseCommaList "" = []
    ∧ (x ∈ parseCommaList s → x ≠ "" ∧ pyStrip x = x) := by
  refine ⟨?_, rfl, ?_⟩
  · by_cases h : s = ""
    · subst h; decide
    · simp [parseCommaList, h]
  · intro hx
    unfold parseCommaList at hx
    by_cases h : s = ""
    · simp [h] at hx
    · rw [if_neg h] at hx
      obtain ⟨hmem, hne⟩ := List.mem_filter.mp hx
      obtain ⟨t, _, rfl⟩ := List.mem_map.mp hmem
      exact ⟨by simpa using hne, pyStrip_idem t⟩

theorem parse_comma_list_spec_witness :
    ("a" ∈ parseCommaList " a , ,b ") ∧ ("a" ≠ "" ∧ pyStrip "a" = "a") :=
  ⟨by decide, (parse_comma_list_spec " a , ,b " "a").2.2 (by decide)⟩

/-- The framework's `Data` envelope: wraps a dict payload. -/
structure Data where
  data : PyDict
deriving DecidableEq, Repr

/-- The framework's `Message` envelope: wraps text. -/
structure Message where
  text : String
deriving DecidableEq, Repr

/-- The object returned by the external `store_memory` method (duck-typed:
the adapter checks truthiness and probes for `to_dict`; `obj_id` models
`str(obj.id)` and `repr_str` models `str(obj)`). -/
structure StoredObj where
  truthy : Bool
  has_to_dict : Bool
  to_dict : PyDict
  obj_id : String
  repr_str : String

/-- The external, duck-typed `ElizaLongTermMemory`-shaped object.  Each
member the fragment may access is a field; `has_...` flags mirror `hasattr`
probes; every call may raise, modelled as `Except String` carrying the
exception text.  `search_memories` takes its `memory_types` argument as an
`Option` because one call site omits it. -/
structure MemoryInstance where
  has_search_memories_semantic : Bool
  search_memories_semantic : String → Int → List String → Except String (List (PyDict × Rat))
  search_memories : String → Option (List String) → Int → Except String (List PyDict)
  has_get_memory_analytics : Bool
  get_memory_analytics : Except String PyDict
  has_add_memory : Bool
  add_memory : String → String → Metadata → List String → Except String (Option String)
  has_store_memory : Bool
  store_memory : String → String → String → String → Metadata → List String → Rat → Except String StoredObj
  has_memory_store : Bool
  memory_store_memories : List PyDict
  save_context : PyDict → PyDict → Except String Unit
  load_memory_variables : PyDict → Except String PyDict
  memory_key : String
  get_timestamp : Except String String

/-- One access on an external collaborator: a `hasattr` probe, an attribute
read, or a method call (with the arguments it was passed).  `callCreateEliza`
is the module-level factory call, not an access on the memory object. -/
inductive MemEvent where
  | probe (name : String)
  | callSearchSemantic (q : String) (lim : Int) (mts : List String)
  | callSearch (q : String) (mts : Option (List String)) (lim : Int)
  | callGetAnalytics
  | callAddMemory (content mtype : String) (md : Metadata) (tags : List String)
  | callStoreMemory (uid content mtype sid : String) (md : Metadata) (tags : List String) (rs : Rat)
  | callSaveContext (inputs outputs : PyDict)
  | callLoadMemoryVariables (inputs : PyDict)
  | readMemoryStore
  | readMemoryKey
  | callGetTimestamp
  | callCreateEliza (sid uid : String) (extract : Bool)
deriving DecidableEq, Repr

/-- The member of the external memory object an event touches (`none` for the
module-level factory call, which is not on the memory object). -/
def MemEvent.memberName : MemEvent → Option String
  | .probe n => some n
  | .callSearchSemantic _ _ _ => some "search_memories_semantic"
  | .callSearch _ _ _ => some "search_memories"
  | .callGetAnalytics => some "get_memory_analytics"
  | .callAddMemory _ _ _ _ => some "add_memory"
  | .callStoreMemory _ _ _ _ _ _ _ => some "store_memory"
  | .callSaveContext _ _ => some "save_context"
  | .callLoadMemoryVariables _ => some "load_memory_variables"
  | .readMemoryStore => some "memory_store"
  | .readMemoryKey => some "memory_key"
  | .callGetTimestamp => some "_get_timestamp"
  | .callCreateEliza _ _ _ => none

/-- Whether an event is a method invocation (as opposed to a `hasattr` probe
or a plain attribute read). -/
def MemEvent.isCall : MemEvent → Bool
  | .probe _ => false
  | .readMemoryStore => false
  | .readMemoryKey => false
  | _ => true

/-! ### `ElizaMemorySearchComponent` (eliza_memory_search.py) -/

/-- The typed input fields of the search component. -/
structure SearchInputs where
  search_query : String
  user_id : String
  memory_types : String
  tags : String
  limit : Int
  semantic_search : Bool
  include_analytics : Bool
  memory_instance : Option MemoryInstance

/-- The instance attributes of the search component
(`self._search_results`, `self._analytics`, `self.status`). -/
structure SearchState where
  search_results : List Data
  analytics : PyDict
  status : String

/-- The component state right after `__init__`. -/
def initSearchState : SearchState := ⟨[], [], ""⟩

def errSearchMsg (e : String) : String := "Error searching memories: " ++ e

def foundMsg (n : Nat) : String := s!"Found {n} memories"

/-- Lines 167-172 of `search_memories`: the optional analytics fetch followed
by the success status; on an analytics exception the handler at lines 174-176
runs (status set to the error text, `[]` returned) while `self._search_results`
keeps the value already assigned by the search branch. -/
def afterSearch (inp : SearchInputs) (mi : MemoryInstance) (st : SearchState)
    (tr : List MemEvent) : List Data × SearchState × List MemEvent :=
  if inp.include_analytics then
    if mi.has_get_memory_analytics then
      match mi.get_memory_analytics with
      | .error e =>
        ([], { st with status := errSearchMsg e },
         tr ++ [.probe "get_memory_analytics", .callGetAnalytics])
      | .ok a =>
        (st.search_results,
         { st with analytics := a, status := foundMsg st.search_results.length },
         tr ++ [.probe "get_memory_analytics", .callGetAnalytics])
    else
      (st.search_results, { st with status := foundMsg st.search_results.length },
       tr ++ [.probe "get_memory_analytics"])
  else
    (st.search_results, { st with status := foundMsg st.search_results.length }, tr)

/-- Lines 151-165 of `search_memories`: the keyword branch
(`self.memory_instance.search_memories(query, memory_types=..., limit=...)`),
followed by the shared tail. -/
def keywordSearch (inp : SearchInputs) (mi : MemoryInstance) (st : SearchState)
    (mts : List String) (tr0 : List MemEvent) : List Data × SearchState × List MemEvent :=
  match mi.search_memories inp.search_query (some mts) inp.limit with
  | .error e =>
    ([], { st with status := errSearchMsg e },
     tr0 ++ [.callSearch inp.search_query (some mts) inp.limit])
  | .ok rs =>
    afterSearch inp mi { st with search_results := rs.map (fun d => Data.mk d) }
      (tr0 ++ [.callSearch inp.search_query (some mts) inp.limit])

/-- `ElizaMemorySearchComponent.search_memories` (lines 113-176): guards on a
falsy instance / query, comma-list parsing, the semantic-vs-keyword dispatch
(`if self.semantic_search and hasattr(..., 'search_memories_semantic')`, with
Python's short-circuit `and`), result marshalling, the optional analytics
fetch, and the broad exception guard. -/
def searchMemories (inp : SearchInputs) (st : SearchState) :
    List Data × SearchState × List MemEvent :=
  match inp.memory_instance with
  | none => ([], { st with status := "No memory instance provided" }, [])
  | some mi =>
    if inp.search_query = "" then
      ([], { st with status := "No search query provided" }, [])
    else
      let mts := parseCommaList inp.memory_types
      if inp.semantic_search then
        if mi.has_search_memories_semantic then
          match mi.search_memories_semantic inp.search_query inp.limit mts with
          | .error e =>
            ([], { st with status := errSearchMsg e },
             [.probe "search_memories_semantic",
              .callSearchSemantic inp.search_query inp.limit mts])
          | .ok rs =>
            afterSearch inp mi
              { st with search_results :=
                  rs.map (fun p => Data.mk (pySet p.1 "similarity_score" (PyVal.vnum p.2))) }
              [.probe "search_memories_semantic",
               .callSearchSemantic inp.search_query inp.limit mts]
        else
          keywordSearch inp mi st mts [.probe "search_memories_semantic"]
      else
        keywordSearch inp mi st mts []

/-- `data.get(k, default)` rendered through `str()` (the source interpolates
the raw value into an f-string / calls `.upper()` on it; the built dicts only
ever hold strings under these keys). -/
def pyStrGet (d : PyDict) (k : String) (dflt : String) : String :=
  match pyGet d k with
  | some v => pyStr v
  | none => dflt

/-- One numbered entry of the formatted results (lines 188-199). -/
def formatMemoryEntry (i : Nat) (d : PyDict) : String :=
  let content := pyStrGet d "content" "No content"
  let mtype := (pyStrGet d "memory_type" "unknown").toUpper
  let base := s!"{i}. [{mtype}] {content}"
  let sim := (pyGet d "similarity_score").getD PyVal.vnone
  if sim = PyVal.vnone then base ++ "\n\n"
  else base ++ s!" (similarity: {pyFormat2 sim})" ++ "\n\n"

/-- `enumerate(self._search_results, 1)` over the formatting loop. -/
def formatEntriesFrom : Nat → List Data → List String
  | _, [] => []
  | i, d :: rest => formatMemoryEntry i d.data :: formatEntriesFrom (i + 1) rest

/-- `ElizaMemorySearchComponent.get_formatted_results` (lines 178-201): re-runs
the search, then formats `self._search_results`. -/
def getFormattedResults (inp : SearchInputs) (st0 : SearchState) :
    Message × SearchState × List MemEvent :=
  let r := searchMemories inp st0
  let st := r.2.1
  if st.search_results = [] then
    (Message.mk "No memories found for the given query.", st, r.2.2)
  else
    (Message.mk (s!"Found {st.search_results.length} memories:" ++ "\n\n" ++
       String.join (formatEntriesFrom 1 st.search_results)), st, r.2.2)

/-- `ElizaMemorySearchComponent.get_memory_analytics` (lines 203-206). -/
def getMemoryAnalyticsOut (inp : SearchInputs) (st0 : SearchState) :
    Data × SearchState × List MemEvent :=
  let r := searchMemories inp st0
  (Data.mk r.2.1.analytics, r.2.1, r.2.2)

/-- `ElizaMemorySearchComponent.get_result_count` (lines 208-211): re-runs the
search, then renders `len(self._search_results)`. -/
def getResultCount (inp : SearchInputs) (st0 : SearchState) :
    Message × SearchState × List MemEvent :=
  let r := searchMemories inp st0
  (Message.mk (toString r.2.1.search_results.length), r.2.1, r.2.2)

/-! ### `ElizaMemoryStoreComponent` (eliza_memory_store.py) -/

/-- The typed input fields of the store component (`generate_embedding` is
declared but never read by `store_memory`). -/
structure StoreInputs where
  content : String
  user_id : String
  session_id : String
  memory_type : String
  tags : String
  metadata : Metadata
  relevance_score : Rat
  generate_embedding : Bool
  memory_instance : Option MemoryInstance

/-- The instance attributes of the store component
(`self._stored_memory`, `self._memory_id`, `self._storage_status`). -/
structure StoreState where
  stored_memory : Option Data
  memory_id : Option String
  storage_status : String

/-- The component state right after `__init__`. -/
def initStoreState : StoreState := ⟨none, none, "Not attempted"⟩

def errStoreMsg (e : String) : String := "Error storing memory: " ++ e

/-- Python truthiness of `self._memory_id` (`None` and `""` are falsy). -/
def optStrTruthy : Option String → Bool
  | some s => s ≠ ""
  | none => false

/-- `m.get('id') == self._memory_id` (absent keys and Python `None` compare
equal to a `None` id). -/
def pyIdMatches (m : PyDict) (mid : Option String) : Bool :=
  (pyGet m "id").getD PyVal.vnone ==
    (match mid with | some s => PyVal.vstr s | none => PyVal.vnone)

/-- Lines 180-193 of `store_memory`: the final status message and the return
value (`self._stored_memory or Data(data={...fallback...})`). -/
def finishStore (inp : StoreInputs) (tags : List String) (st : StoreState) :
    Data × StoreState :=
  let st1 :=
    if optStrTruthy st.memory_id then
      { st with storage_status :=
          "Successfully stored memory with ID: " ++ st.memory_id.getD "" }
    else { st with storage_status := "Memory stored but ID not available" }
  match st1.stored_memory with
  | some d => (d, st1)
  | none =>
    (Data.mk [("content", PyVal.vstr inp.content),
              ("memory_type", PyVal.vstr inp.memory_type),
              ("user_id", PyVal.vstr inp.user_id),
              ("session_id", PyVal.vstr inp.session_id),
              ("tags", PyVal.vlistStr tags),
              ("metadata", PyVal.vdictStr inp.metadata),
              ("relevance_score", PyVal.vnum inp.relevance_score)], st1)

/-- `ElizaMemoryStoreComponent.store_memory` (lines 121-197): guards on a
falsy instance / content, tag parsing, the `if/elif hasattr` dispatch between
`add_memory` and `store_memory`, the `memory_store` lookup of the stored
record, and the broad exception guard. -/
def storeMemory (inp : StoreInputs) (st : StoreState) :
    Data × StoreState × List MemEvent :=
  match inp.memory_instance with
  | none =>
    (Data.mk [], { st with storage_status := "Error: No memory instance provided" }, [])
  | some mi =>
    if inp.content = "" then
      (Data.mk [], { st with storage_status := "Error: No content provided" }, [])
    else
      let tags := parseCommaList inp.tags
      if mi.has_add_memory then
        match mi.add_memory inp.content inp.memory_type inp.metadata tags with
        | .error e =>
          (Data.mk [], { st with storage_status := errStoreMsg e },
           [.probe "add_memory",
            .callAddMemory inp.content inp.memory_type inp.metadata tags])
        | .ok mid =>
          let st1 := { st with memory_id := mid }
          if mi.has_memory_store then
            let matching := mi.memory_store_memories.filter (fun m => pyIdMatches m mid)
            let st2 := match matching with
              | [] => st1
              | m0 :: _ => { st1 with stored_memory := some (Data.mk m0) }
            let r := finishStore inp tags st2
            (r.1, r.2,
             [.probe "add_memory",
              .callAddMemory inp.content inp.memory_type inp.metadata tags,
              .probe "memory_store", .readMemoryStore])
          else
            let r := finishStore inp tags st1
            (r.1, r.2,
             [.probe "add_memory",
              .callAddMemory inp.content inp.memory_type inp.metadata tags,
              .probe "memory_store"])
      else if mi.has_store_memory then
        match mi.store_memory inp.user_id inp.content inp.memory_type inp.session_id
            inp.metadata tags inp.relevance_score with
        | .error e =>
          (Data.mk [], { st with storage_status := errStoreMsg e },
           [.probe "add_memory", .probe "store_memory",
            .callStoreMemory inp.user_id inp.content inp.memory_type inp.session_id
              inp.metadata tags inp.relevance_score])
        | .ok obj =>
          let st1 :=
            if obj.truthy then
              if obj.has_to_dict then
                { st with stored_memory := some (Data.mk obj.to_dict),
                          memory_id := some obj.obj_id }
              else
                { st with stored_memory := some (Data.mk [("id", PyVal.vstr obj.repr_str)]),
                          memory_id := some obj.repr_str }
            else st
          let r := finishStore inp tags st1
          (r.1, r.2,
           [.probe "add_memory", .probe "store_memory",
            .callStoreMemory inp.user_id inp.content inp.memory_type inp.session_id
              inp.metadata tags inp.relevance_score])
      else
        (Data.mk [],
         { st with storage_status := "Error: Memory instance does not support memory storage" },
         [.probe "add_memory", .probe "store_memory"])

/-- `ElizaMemoryStoreComponent.get_memory_id` (lines 199-202):
`Message(text=self._memory_id or "No memory ID available")`. -/
def getMemoryId (inp : StoreInputs) (st0 : StoreState) :
    Message × StoreState × List MemEvent :=
  let r := storeMemory inp st0
  (Message.mk (if optStrTruthy r.2.1.memory_id then r.2.1.memory_id.getD ""
               else "No memory ID available"), r.2.1, r.2.2)

/-- `ElizaMemoryStoreComponent.get_storage_status` (lines 204-207). -/
def getStorageStatus (inp : StoreInputs) (st0 : StoreState) :
    Message × StoreState × List MemEvent :=
  let r := storeMemory inp st0
  (Message.mk r.2.1.storage_status, r.2.1, r.2.2)

/-- `ElizaMemoryStoreComponent.get_updated_memory_instance` (lines 209-212):
runs `store_memory`, then returns `self.memory_instance`. -/
def getUpdatedMemoryInstance (inp : StoreInputs) (st0 : StoreState) :
    Option MemoryInstance × StoreState × List MemEvent :=
  let r := storeMemory inp st0
  (inp.memory_instance, r.2.1, r.2.2)

/-! ### `ElizaMemoryComponent` (eliza_memory.py) -/

/-- The typed input fields of the memory component. -/
structure MemoryCompInputs where
  session_id : String
  user_id : String
  message : String
  extract_memories : Bool
  include_context : Bool
  max_memories : Int
  metadata : Metadata
  existing_memory : Option MemoryInstance

/-- The instance attributes of the memory component (`self._memory_instance`,
`self._memory_context`, `self._stored_message`, `self._relevant_memories`,
`self.status`). -/
structure MemoryCompState where
  memory_instance_st : Option MemoryInstance
  memory_context : PyVal
  stored_message : Option Data
  relevant_memories : List PyDict
  status : String

/-- The component state right after `__init__`. -/
def initMemoryCompState : MemoryCompState := ⟨none, PyVal.vstr "", none, [], ""⟩

def errProcessMsg (e : String) : String := "Error processing message: " ++ e

/-- Lines 147-152 of `_process_message`: `inputs = {"input": self.message}`,
optionally updated with the metadata (`if self.metadata:`). -/
def contextInputs (inp : MemoryCompInputs) : PyDict :=
  if inp.metadata = [] then [("input", PyVal.vstr inp.message)]
  else pyUpdate [("input", PyVal.vstr inp.message)] inp.metadata

def errBuildMsg (e : String) : String := "Error building memory: " ++ e

/-- Lines 168-177 of `_process_message`: `self._memory_instance._get_timestamp()`
and the stored-message `Data` envelope. -/
def finishProcess (inp : MemoryCompInputs) (mi : MemoryInstance)
    (st : MemoryCompState) (tr : List MemEvent) : MemoryCompState × List MemEvent :=
  match mi.get_timestamp with
  | .error e => ({ st with status := errProcessMsg e }, tr ++ [.callGetTimestamp])
  | .ok ts =>
    ({ st with stored_message := some (Data.mk
        [("content", PyVal.vstr inp.message),
         ("session_id", PyVal.vstr inp.session_id),
         ("user_id", PyVal.vstr inp.user_id),
         ("timestamp", PyVal.vstr ts),
         ("metadata", PyVal.vdictStr inp.metadata)]) },
     tr ++ [.callGetTimestamp])

/-- `ElizaMemoryComponent._process_message` (lines 140-180): guards, the
`save_context` call, the optional context retrieval
(`search_memories(self.message, limit=self.max_memories)`,
`load_memory_variables`, `memory_vars.get(self._memory_instance.memory_key, "")`),
the stored-message envelope, and the broad exception guard that converts any
failure into a status string while keeping the updates already made. -/
def processMessage (inp : MemoryCompInputs) (st : MemoryCompState) :
    MemoryCompState × List MemEvent :=
  match st.memory_instance_st with
  | none => (st, [])
  | some mi =>
    if inp.message = "" then (st, [])
    else
      match mi.save_context (contextInputs inp) [("output", PyVal.vstr "")] with
      | .error e =>
        ({ st with status := errProcessMsg e },
         [.callSaveContext (contextInputs inp) [("output", PyVal.vstr "")]])
      | .ok _ =>
        let tr1 : List MemEvent :=
          [.callSaveContext (contextInputs inp) [("output", PyVal.vstr "")]]
        if inp.include_context then
          match mi.search_memories inp.message none inp.max_memories with
          | .error e =>
            ({ st with status := errProcessMsg e },
             tr1 ++ [.callSearch inp.message none inp.max_memories])
          | .ok rels =>
            let st1 := { st with relevant_memories := rels }
            let tr2 := tr1 ++ [.callSearch inp.message none inp.max_memories]
            match mi.load_memory_variables (contextInputs inp) with
            | .error e =>
              ({ st1 with status := errProcessMsg e },
               tr2 ++ [.callLoadMemoryVariables (contextInputs inp)])
            | .ok mvars =>
              let st2 := { st1 with
                memory_context := (pyGet mvars mi.memory_key).getD (PyVal.vstr "") }
              finishProcess inp mi st2
                (tr2 ++ [.callLoadMemoryVariables (contextInputs inp), .readMemoryKey])
        else finishProcess inp mi st tr1

/-- `ElizaMemoryComponent.build_memory` (lines 115-138).  `importErr` models
the outcome of `from langchain.memory.eliza_memory import create_eliza_memory`
(`some e` when the import raises), and `cem` models the external
`create_eliza_memory` factory.  If `self.existing_memory` is truthy it is used
directly, else the factory is called with `session_id`, `user_id` and
`memory_extraction=self.extract_memories`; a non-empty message is then
processed; the broad exception guard only sees import/creation failures
(`_process_message` swallows its own), and the method returns
`self._memory_instance`. -/
def buildMemory (importErr : Option String)
    (cem : String → String → Bool → Except String MemoryInstance)
    (inp : MemoryCompInputs) (st0 : MemoryCompState) :
    Option MemoryInstance × MemoryCompState × List MemEvent :=
  match importErr with
  | some e => (none, { st0 with status := errBuildMsg e }, [])
  | none =>
    match inp.existing_memory with
    | some m =>
      let st1 := { st0 with memory_instance_st := some m }
      if inp.message = "" then (st1.memory_instance_st, st1, [])
      else
        let r := processMessage inp st1
        (r.1.memory_instance_st, r.1, r.2)
    | none =>
      match cem inp.session_id inp.user_id inp.extract_memories with
      | .error e =>
        (none, { st0 with status := errBuildMsg e },
         [.callCreateEliza inp.session_id inp.user_id inp.extract_memories])
      | .ok m =>
        let st1 := { st0 with memory_instance_st := some m }
        let tr0 : List MemEvent :=
          [.callCreateEliza inp.session_id inp.user_id inp.extract_memories]
        if inp.message = "" then (st1.memory_instance_st, st1, tr0)
        else
          let r := processMessage inp st1
          (r.1.memory_instance_st, r.1, tr0 ++ r.2)

/-- `ElizaMemoryComponent.get_relevant_memories` (lines 196-204). -/
def getRelevantMemories (importErr : Option String)
    (cem : String → String → Bool → Except String MemoryInstance)
    (inp : MemoryCompInputs) (st0 : MemoryCompState) :
    List Data × MemoryCompState × List MemEvent :=
  let r := buildMemory importErr cem inp st0
  (r.2.1.relevant_memories.map (fun m => Data.mk m), r.2.1, r.2.2)

/-! ### Claims -/

/-- C8: `ElizaMemoryStoreComponent.get_updated_memory_instance` always returns
the very same memory-instance handle that was supplied as the
`memory_instance` input, unchanged and without creating a new object,
whatever the prior component state and whatever `store_memory` did. -/
theorem updated_instance_identity (inp : StoreInputs) (st : StoreState) :
    (getUpdatedMemoryInstance inp st).1 = inp.memory_instance := rfl

/-- C9: a falsy `memory_instance` or `search_query` makes `search_memories`
return `[]`, and a falsy `memory_instance` or `content` makes `store_memory`
return an empty `Data`; in each case an explanatory status is set and no
member of the external memory object is touched (the event trace is empty). -/
theorem guard_no_external_calls (inp : SearchInputs) (sinp : StoreInputs)
    (st : SearchState) (sst : StoreState)
    (h1 : inp.memory_instance = none ∨ inp.search_query = "")
    (h2 : sinp.memory_instance = none ∨ sinp.content = "") :
    ((searchMemories inp st).1 = []
      ∧ (searchMemories inp st).2.2 = []
      ∧ ((searchMemories inp st).2.1.status = "No memory instance provided"
         ∨ (searchMemories inp st).2.1.status = "No search query provided"))
    ∧ ((storeMemory sinp sst).1 = Data.mk []
      ∧ (storeMemory sinp sst).2.2 = []
      ∧ ((storeMemory sinp sst).2.1.storage_status = "Error: No memory instance provided"
         ∨ (storeMemory sinp sst).2.1.storage_status = "Error: No content provided")) := by
  constructor
  · rcases h1 with h | h
    · simp [searchMemories, h]
    · cases hmi : inp.memory_instance with
      | none => simp [searchMemories, hmi]
      | some mi => simp [searchMemories, hmi, h]
  · rcases h2 with h | h
    · simp [storeMemory, h]
    · cases hmi : sinp.memory_instance with
      | none => simp [storeMemory, hmi]
      | some mi => simp [storeMemory, hmi, h]

/-- Search-component inputs with no memory instance connected. -/
def noInstSearchInputs : SearchInputs := ⟨"q", "u", "", "", 10, true, false, none⟩

/-- Store-component inputs with no memory instance connected. -/
def noInstStoreInputs : StoreInputs := ⟨"c", "u", "s", "general", "", [], 1, true, none⟩

theorem guard_no_external_calls_witness :
    ((searchMemories noInstSearchInputs initSearchState).1 = []
      ∧ (searchMemories noInstSearchInputs initSearchState).2.2 = [])
    ∧ ((storeMemory noInstStoreInputs initStoreState).1 = Data.mk []
      ∧ (storeMemory noInstStoreInputs initStoreState).2.2 = []) := by
  have h := guard_no_external_calls noInstSearchInputs noInstStoreInputs
    initSearchState initStoreState (Or.inl rfl) (Or.inl rfl)
  exact ⟨⟨h.1.1, h.1.2.1⟩, ⟨h.2.1, h.2.2.1⟩⟩

theorem afterSearch_trace_mem (inp : SearchInputs) (mi : MemoryInstance)
    (st : SearchState) (tr : List MemEvent) (ev : MemEvent)
    (h1 : ev ≠ .probe "get_memory_analytics") (h2 : ev ≠ .callGetAnalytics) :
    ev ∈ (afterSearch inp mi st tr).2.2 ↔ ev ∈ tr := by
  unfold afterSearch
  rcases hga : mi.get_memory_analytics with e | a <;>
    by_cases hia : inp.include_analytics <;>
    by_cases hha : mi.has_get_memory_analytics <;>
    simp [hia, hha, hga, h1, h2]

theorem keywordSearch_trace_mem (inp : SearchInputs) (mi : MemoryInstance)
    (st : SearchState) (mts : List String) (tr0 : List MemEvent) (ev : MemEvent)
    (h1 : ev ≠ .probe "get_memory_analytics") (h2 : ev ≠ .callGetAnalytics) :
    ev ∈ (keywordSearch inp mi st mts tr0).2.2 ↔
      ev ∈ tr0 ∨ ev = MemEvent.callSearch inp.search_query (some mts) inp.limit := by
  unfold keywordSearch
  rcases hr : mi.search_memories inp.search_query (some mts) inp.limit with e | rs
  · simp [hr]
  · simp [hr, afterSearch_trace_mem inp mi _ _ ev h1 h2]

/-- C1: with an instance connected and a non-empty query, the semantic-search
branch (calling `search_memories_semantic` with the query, the limit and the
parsed memory-types) is taken if and only if the `semantic_search` input is
true and the instance has a `search_memories_semantic` attribute; in every
other case the keyword branch is taken, calling `search_memories` on the
instance with the query, the parsed `memory_types` list and the `limit`
input — and never the other call. -/
theorem search_dispatch_spec (inp : SearchInputs) (mi : MemoryInstance) (st : SearchState)
    (hmi : inp.memory_instance = some mi) (hq : ¬(inp.search_query = "")) :
    ((inp.semantic_search = true ∧ mi.has_search_memories_semantic = true) →
      (MemEvent.callSearchSemantic inp.search_query inp.limit (parseCommaList inp.memory_types)
          ∈ (searchMemories inp st).2.2
        ∧ ∀ q m l, MemEvent.callSearch q m l ∉ (searchMemories inp st).2.2))
    ∧ (¬(inp.semantic_search = true ∧ mi.has_search_memories_semantic = true) →
      (MemEvent.callSearch inp.search_query (some (parseCommaList inp.memory_types)) inp.limit
          ∈ (searchMemories inp st).2.2
        ∧ ∀ q l m, MemEvent.callSearchSemantic q l m ∉ (searchMemories inp st).2.2)) := by
  unfold searchMemories
  rw [hmi]
  simp only [if_neg hq]
  constructor
  · rintro ⟨hsem, hhas⟩
    rw [hsem, hhas]
    simp only [if_pos]
    rcases hr : mi.search_memories_semantic inp.search_query inp.limit
        (parseCommaList inp.memory_types) with e | rs
    · constructor
      · simp
      · intro q m l
        simp
    · constructor
      · rw [afterSearch_trace_mem _ _ _ _ _ (by simp) (by simp)]
        simp
      · intro q m l
        rw [afterSearch_trace_mem _ _ _ _ _ (by simp) (by simp)]
        simp
  · intro hns
    have h : inp.semantic_search = false ∨
        (inp.semantic_search = true ∧ mi.has_search_memories_semantic = false) := by
      cases hs : inp.semantic_search
      · exact Or.inl rfl
      · cases hh : mi.has_search_memories_semantic
        · exact Or.inr ⟨rfl, rfl⟩
        · exact absurd ⟨hs, hh⟩ hns
    rcases h with hs | ⟨hs, hh⟩
    · rw [hs]
      simp only [Bool.false_eq_true, if_neg, if_false]
      constructor
      · rw [keywordSearch_trace_mem _ _ _ _ _ _ (by simp) (by simp)]
        simp
      · intro q l m
        rw [keywordSearch_trace_mem _ _ _ _ _ _ (by simp) (by simp)]
        simp
    · rw [hs, hh]
      simp only [if_pos, Bool.false_eq_true, if_neg, if_false]
      constructor
      · rw [keywordSearch_trace_mem _ _ _ _ _ _ (by simp) (by simp)]
        simp
      · intro q l m
        rw [keywordSearch_trace_mem _ _ _ _ _ _ (by simp) (by simp)]
        simp

/-- A concrete memory record used by the concrete instances below. -/
def demoRecord : PyDict :=
  [("content", PyVal.vstr "likes tea"), ("memory_type", PyVal.vstr "preference")]

/-- A concrete, well-behaved memory instance for witnesses. -/
def okInst : MemoryInstance where
  has_search_memories_semantic := true
  search_memories_semantic := fun _ _ _ => .ok [(demoRecord, 1)]
  search_memories := fun _ _ _ => .ok [demoRecord]
  has_get_memory_analytics := true
  get_memory_analytics := .ok [("total_memories", PyVal.vnum 1)]
  has_add_memory := true
  add_memory := fun _ _ _ _ => .ok (some "mem-1")
  has_store_memory := true
  store_memory := fun _ _ _ _ _ _ _ => .ok ⟨true, false, [], "7", "7"⟩
  has_memory_store := true
  memory_store_memories := [[("id", PyVal.vstr "mem-1"), ("content", PyVal.vstr "likes tea")]]
  save_context := fun _ _ => .ok ()
  load_memory_variables := fun _ => .ok [("history", PyVal.vstr "prior chat")]
  memory_key := "history"
  get_timestamp := .ok "2025-01-01T00:00:00"

/-- Concrete search inputs with semantic search switched off. -/
def kwSearchInputs : SearchInputs :=
  ⟨"tea", "u1", "preference, factual", "", 5, false, false, some okInst⟩

theorem search_dispatch_spec_witness :
    MemEvent.callSearch kwSearchInputs.search_query
        (some (parseCommaList kwSearchInputs.memory_types)) kwSearchInputs.limit
      ∈ (searchMemories kwSearchInputs initSearchState).2.2
    ∧ ∀ q l m, MemEvent.callSearchSemantic q l m
      ∉ (searchMemories kwSearchInputs initSearchState).2.2 :=
  (search_dispatch_spec kwSearchInputs okInst initSearchState rfl (by decide)).2 (by decide)

/-- C2: with an instance connected and non-empty content, `store_memory`
dispatches on `hasattr`: an instance with `add_memory` gets that method called
with the content, the memory type, the metadata and the parsed tags (and
`store_memory` is never called); otherwise an instance with `store_memory`
gets that method called with the user id, content, memory type, session id,
metadata, parsed tags and relevance score (and `add_memory` is never called);
an instance with neither gets the storage status
"Error: Memory instance does not support memory storage" and an empty `Data`
envelope back, with no method invocation on the external object at all. -/
theorem store_dispatch_spec (inp : StoreInputs) (mi : MemoryInstance) (st : StoreState)
    (hmi : inp.memory_instance = some mi) (hc : ¬(inp.content = "")) :
    (mi.has_add_memory = true →
      (MemEvent.callAddMemory inp.content inp.memory_type inp.metadata (parseCommaList inp.tags)
          ∈ (storeMemory inp st).2.2
        ∧ ∀ u c m s md tg r, MemEvent.callStoreMemory u c m s md tg r ∉ (storeMemory inp st).2.2))
    ∧ (mi.has_add_memory = false → mi.has_store_memory = true →
      (MemEvent.callStoreMemory inp.user_id inp.content inp.memory_type inp.session_id
          inp.metadata (parseCommaList inp.tags) inp.relevance_score ∈ (storeMemory inp st).2.2
        ∧ ∀ c m md tg, MemEvent.callAddMemory c m md tg ∉ (storeMemory inp st).2.2))
    ∧ (mi.has_add_memory = false → mi.has_store_memory = false →
      ((storeMemory inp st).2.1.storage_status =
          "Error: Memory instance does not support memory storage"
        ∧ (storeMemory inp st).1 = Data.mk []
        ∧ ∀ ev ∈ (storeMemory inp st).2.2, ev.isCall = false)) := by
  unfold storeMemory
  rw [hmi]
  simp only [if_neg hc]
  refine ⟨?_, ?_, ?_⟩
  · intro hadd
    rw [hadd]
    rcases hr : mi.add_memory inp.content inp.memory_type inp.metadata
        (parseCommaList inp.tags) with e | mid
    · simp [hr]
    · by_cases hms : mi.has_memory_store <;> simp [hr, hms]
  · intro hadd hsm
    rw [hadd, hsm]
    rcases hr : mi.store_memory inp.user_id inp.content inp.memory_type inp.session_id
        inp.metadata (parseCommaList inp.tags) inp.relevance_score with e | obj <;>
      simp [hr]
  · intro hadd hsm
    rw [hadd, hsm]
    simp [MemEvent.isCall]

/-- Concrete store inputs hitting the `add_memory` branch. -/
def addStoreInputs : StoreInputs :=
  ⟨"likes tea", "u1", "s1", "preference", "work, tea", [("k", "v")], 1, true, some okInst⟩

theorem store_dispatch_spec_witness :
    MemEvent.callAddMemory addStoreInputs.content addStoreInputs.memory_type
        addStoreInputs.metadata (parseCommaList addStoreInputs.tags)
      ∈ (storeMemory addStoreInputs initStoreState).2.2
    ∧ ∀ u c m s md tg r, MemEvent.callStoreMemory u c m s md tg r
      ∉ (storeMemory addStoreInputs initStoreState).2.2 :=
  (store_dispatch_spec addStoreInputs okInst initStoreState rfl (by decide)).1 rfl

/-! ### Trace-shape lemmas: which events each operation can ever emit -/

theorem afterSearch_trace_events (inp : SearchInputs) (mi : MemoryInstance)
    (st : SearchState) (tr : List MemEvent) :
    ∀ ev ∈ (afterSearch inp mi st tr).2.2,
      ev ∈ tr ∨ ev = .probe "get_memory_analytics" ∨ ev = .callGetAnalytics := by
  intro ev h
  unfold afterSearch at h
  repeat' split at h
  all_goals simp_all
  all_goals aesop

theorem keywordSearch_trace_events (inp : SearchInputs) (mi : MemoryInstance)
    (st : SearchState) (mts : List String) (tr0 : List MemEvent) :
    ∀ ev ∈ (keywordSearch inp mi st mts tr0).2.2,
      ev ∈ tr0 ∨ (∃ q m l, ev = .callSearch q m l)
      ∨ ev = .probe "get_memory_analytics" ∨ ev = .callGetAnalytics := by
  intro ev h
  unfold keywordSearch at h
  split at h
  · simp only [List.mem_append, List.mem_singleton] at h
    rcases h with h | h
    · exact Or.inl h
    · exact Or.inr (Or.inl ⟨_, _, _, h⟩)
  · rcases afterSearch_trace_events inp mi _ _ ev h with h2 | h2 | h2
    · simp only [List.mem_append, List.mem_singleton] at h2
      rcases h2 with h2 | h2
      · exact Or.inl h2
      · exact Or.inr (Or.inl ⟨_, _, _, h2⟩)
    · tauto
    · tauto

theorem searchMemories_trace_events (inp : SearchInputs) (st : SearchState) :
    ∀ ev ∈ (searchMemories inp st).2.2,
      ev = .probe "search_memories_semantic" ∨ (∃ q l m, ev = .callSearchSemantic q l m)
      ∨ (∃ q m l, ev = .callSearch q m l)
      ∨ ev = .probe "get_memory_analytics" ∨ ev = .callGetAnalytics := by
  intro ev h
  unfold searchMemories at h
  dsimp only at h
  split at h
  · simp at h
  · split at h
    · simp at h
    · split at h
      · split at h
        · split at h
          · simp only [List.mem_cons, List.not_mem_nil, or_false] at h
            rcases h with h | h
            · exact Or.inl h
            · exact Or.inr (Or.inl ⟨_, _, _, h⟩)
          · rcases afterSearch_trace_events inp _ _ _ ev h with h2 | h2 | h2
            · simp only [List.mem_cons, List.not_mem_nil, or_false] at h2
              rcases h2 with h2 | h2
              · exact Or.inl h2
              · exact Or.inr (Or.inl ⟨_, _, _, h2⟩)
            · exact Or.inr (Or.inr (Or.inr (Or.inl h2)))
            · exact Or.inr (Or.inr (Or.inr (Or.inr h2)))
        · rcases keywordSearch_trace_events inp _ _ _ _ ev h with h2 | h2 | h2 | h2
          · simp only [List.mem_cons, List.not_mem_nil, or_false] at h2
            exact Or.inl h2
          · exact Or.inr (Or.inr (Or.inl h2))
          · exact Or.inr (Or.inr (Or.inr (Or.inl h2)))
          · exact Or.inr (Or.inr (Or.inr (Or.inr h2)))
      · rcases keywordSearch_trace_events inp _ _ _ _ ev h with h2 | h2 | h2 | h2
        · simp at h2
        · exact Or.inr (Or.inr (Or.inl h2))
        · exact Or.inr (Or.inr (Or.inr (Or.inl h2)))
        · exact Or.inr (Or.inr (Or.inr (Or.inr h2)))

theorem storeMemory_trace_events (inp : StoreInputs) (st : StoreState) :
    ∀ ev ∈ (storeMemory inp st).2.2,
      ev = .probe "add_memory" ∨ (∃ c m md tg, ev = .callAddMemory c m md tg)
      ∨ ev = .probe "memory_store" ∨ ev = .readMemoryStore
      ∨ ev = .probe "store_memory"
      ∨ (∃ u c m s md tg r, ev = .callStoreMemory u c m s md tg r) := by
  intro ev h
  unfold storeMemory at h
  dsimp only at h
  repeat' split at h
  all_goals simp_all
  all_goals aesop

theorem processMessage_trace_events (inp : MemoryCompInputs) (st : MemoryCompState) :
    ∀ ev ∈ (processMessage inp st).2,
      (∃ i o, ev = .callSaveContext i o) ∨ (∃ q m l, ev = .callSearch q m l)
      ∨ (∃ i, ev = .callLoadMemoryVariables i) ∨ ev = .readMemoryKey
      ∨ ev = .callGetTimestamp := by
  intro ev h
  unfold processMessage finishProcess at h
  dsimp only at h
  repeat' split at h
  all_goals simp_all
  all_goals aesop

theorem finishProcess_instance_st (inp : MemoryCompInputs) (mi : MemoryInstance)
    (st : MemoryCompState) (tr : List MemEvent) :
    (finishProcess inp mi st tr).1.memory_instance_st = st.memory_instance_st := by
  unfold finishProcess
  rcases h : mi.get_timestamp with e | ts <;> simp [h]

theorem processMessage_instance_st (inp : MemoryCompInputs) (st : MemoryCompState) :
    (processMessage inp st).1.memory_instance_st = st.memory_instance_st := by
  unfold processMessage
  rcases hmi : st.memory_instance_st with _ | mi
  · simp [hmi]
  · by_cases hm : inp.message = ""
    · simp [hm, hmi]
    · simp only [if_neg hm]
      rcases hsc : mi.save_context (contextInputs inp) [("output", PyVal.vstr "")] with e | u
      · simp [hsc, hmi]
      · simp only [hsc]
        by_cases hic : inp.include_context
        · simp only [hic, if_pos]
          rcases hse : mi.search_memories inp.message none inp.max_memories with e | rels
          · simp [hse, hmi]
          · simp only [hse]
            rcases hld : mi.load_memory_variables (contextInputs inp) with e | mvars
            · simp [hld, hmi]
            · simp only [hld]
              rw [finishProcess_instance_st]
        · simp only [hic, Bool.false_eq_true, if_false]
          rw [finishProcess_instance_st]
          exact hmi

/-- C6: when the external library imports cleanly, `build_memory` uses the
`existing_memory` input as the memory instance whenever one is provided and
then never calls `create_eliza_memory`; otherwise the very first external
event is the `create_eliza_memory` call with `session_id`, `user_id` and
`memory_extraction = extract_memories`, and when that call succeeds its
result is the instance returned. -/
theorem build_memory_instance_choice
    (cem : String → String → Bool → Except String MemoryInstance)
    (inp : MemoryCompInputs) (st : MemoryCompState) :
    (∀ m, inp.existing_memory = some m →
      ((buildMemory none cem inp st).1 = some m
        ∧ ∀ s u x, MemEvent.callCreateEliza s u x ∉ (buildMemory none cem inp st).2.2))
    ∧ (inp.existing_memory = none →
      ((buildMemory none cem inp st).2.2.head? =
          some (.callCreateEliza inp.session_id inp.user_id inp.extract_memories)
        ∧ ∀ m, cem inp.session_id inp.user_id inp.extract_memories = .ok m →
            (buildMemory none cem inp st).1 = some m)) := by
  constructor
  · intro m hm
    constructor
    · unfold buildMemory
      rw [hm]
      by_cases hmsg : inp.message = ""
      · simp [hmsg]
      · simp only [if_neg hmsg]
        simp [processMessage_instance_st]
    · intro s u x hmem
      unfold buildMemory at hmem
      rw [hm] at hmem
      by_cases hmsg : inp.message = ""
      · simp [hmsg] at hmem
      · simp only [if_neg hmsg] at hmem
        rcases processMessage_trace_events inp _ _ hmem with
          ⟨i, o, h⟩ | ⟨q, mm, l, h⟩ | ⟨i, h⟩ | h | h <;> simp at h
  · intro hn
    unfold buildMemory
    rw [hn]
    rcases hc : cem inp.session_id inp.user_id inp.extract_memories with e | m
    · exact ⟨by simp, fun m' hm' => by simp at hm'⟩
    · constructor
      · by_cases hmsg : inp.message = "" <;> simp [hmsg]
      · intro m' hm'
        injection hm' with h
        subst h
        by_cases hmsg : inp.message = ""
        · simp [hmsg]
        · simp only [if_neg hmsg]
          simp [processMessage_instance_st]

/-- A concrete external factory for witnesses. -/
def cemDemo : String → String → Bool → Except String MemoryInstance :=
  fun _ _ _ => .ok okInst

/-- Concrete memory-component inputs with an existing instance connected. -/
def existingMemInputs : MemoryCompInputs :=
  ⟨"s1", "u1", "hello", true, true, 5, [], some okInst⟩

theorem build_memory_instance_choice_witness :
    (buildMemory none cemDemo existingMemInputs initMemoryCompState).1 = some okInst
    ∧ ∀ s u x, MemEvent.callCreateEliza s u x
      ∉ (buildMemory none cemDemo existingMemInputs initMemoryCompState).2.2 :=
  (build_memory_instance_choice cemDemo existingMemInputs initMemoryCompState).1 okInst rfl

/-- Whether an external call returned normally (did not raise). -/
def isOkE {A : Type} : Except String A → Bool
  | .ok _ => true
  | .error _ => false

/-- All external calls made by one `search_memories` invocation return
normally: the dispatched search call succeeds, and, when the analytics fetch
happens (`include_analytics` and the attribute present), it succeeds too. -/
def searchSucceeds (inp : SearchInputs) (mi : MemoryInstance) : Prop :=
  ((inp.semantic_search = true ∧ mi.has_search_memories_semantic = true) →
    isOkE (mi.search_memories_semantic inp.search_query inp.limit
      (parseCommaList inp.memory_types)) = true)
  ∧ (¬(inp.semantic_search = true ∧ mi.has_search_memories_semantic = true) →
    isOkE (mi.search_memories inp.search_query (some (parseCommaList inp.memory_types))
      inp.limit) = true)
  ∧ ((inp.include_analytics = true ∧ mi.has_get_memory_analytics = true) →
    isOkE mi.get_memory_analytics = true)

theorem afterSearch_ok (inp : SearchInputs) (mi : MemoryInstance) (st : SearchState)
    (tr : List MemEvent)
    (ha : (inp.include_analytics = true ∧ mi.has_get_memory_analytics = true) →
      isOkE mi.get_memory_analytics = true) :
    (afterSearch inp mi st tr).1 = st.search_results
    ∧ (afterSearch inp mi st tr).2.1.search_results = st.search_results
    ∧ (afterSearch inp mi st tr).2.1.status = foundMsg st.search_results.length := by
  unfold afterSearch
  rcases hga : mi.get_memory_analytics with e | a <;>
    by_cases hia : inp.include_analytics <;>
    by_cases hha : mi.has_get_memory_analytics <;>
    simp_all [isOkE]

theorem keywordSearch_ok (inp : SearchInputs) (mi : MemoryInstance) (st : SearchState)
    (mts : List String) (tr0 : List MemEvent)
    (hr : isOkE (mi.search_memories inp.search_query (some mts) inp.limit) = true)
    (ha : (inp.include_analytics = true ∧ mi.has_get_memory_analytics = true) →
      isOkE mi.get_memory_analytics = true) :
    (keywordSearch inp mi st mts tr0).2.1.search_results = (keywordSearch inp mi st mts tr0).1
    ∧ (keywordSearch inp mi st mts tr0).2.1.status =
      foundMsg (keywordSearch inp mi st mts tr0).1.length := by
  unfold keywordSearch
  rcases hre : mi.search_memories inp.search_query (some mts) inp.limit with e | rs
  · rw [hre] at hr
    simp [isOkE] at hr
  · dsimp only
    have h3 := afterSearch_ok inp mi
      { st with search_results := rs.map (fun d => Data.mk d) }
      (tr0 ++ [.callSearch inp.search_query (some mts) inp.limit]) ha
    refine ⟨?_, ?_⟩
    · rw [h3.2.1, h3.1]
    · rw [h3.2.2]
      rw [show (afterSearch inp mi { st with search_results := rs.map (fun d => Data.mk d) }
        (tr0 ++ [.callSearch inp.search_query (some mts) inp.limit])).1 =
          rs.map (fun d => Data.mk d) from h3.1]

/-- C10: whenever `search_memories` completes its search without raising
(instance connected, non-empty query, all external calls succeed), the three
result-describing outputs agree: the status is `Found N memories` for `N` the
length of the returned list, `get_result_count` renders that same `N` in
decimal, and for `N > 0` the formatted results begin with `Found N memories:`. -/
theorem result_outputs_agree (inp : SearchInputs) (mi : MemoryInstance) (st : SearchState)
    (hmi : inp.memory_instance = some mi) (hq : ¬(inp.search_query = ""))
    (hok : searchSucceeds inp mi) :
    (searchMemories inp st).2.1.search_results = (searchMemories inp st).1
    ∧ (searchMemories inp st).2.1.status = foundMsg (searchMemories inp st).1.length
    ∧ (getResultCount inp st).1.text = toString (searchMemories inp st).1.length
    ∧ ((searchMemories inp st).1.length ≠ 0 →
        ∃ rest, (getFormattedResults inp st).1.text =
          s!"Found {(searchMemories inp st).1.length} memories:" ++ rest) := by
  obtain ⟨hsem1, hkw1, hana⟩ := hok
  have key : (searchMemories inp st).2.1.search_results = (searchMemories inp st).1
      ∧ (searchMemories inp st).2.1.status = foundMsg (searchMemories inp st).1.length := by
    unfold searchMemories
    rw [hmi]
    simp only [if_neg hq]
    by_cases hsem : inp.semantic_search
    · by_cases hhas : mi.has_search_memories_semantic
      · rw [hsem, hhas]
        simp only [if_true]
        have hco := hsem1 ⟨hsem, hhas⟩
        rcases hre : mi.search_memories_semantic inp.search_query inp.limit
            (parseCommaList inp.memory_types) with e | rs
        · rw [hre] at hco
          simp [isOkE] at hco
        · dsimp only
          have h3 := afterSearch_ok inp mi
            { st with search_results :=
                rs.map (fun p => Data.mk (pySet p.1 "similarity_score" (PyVal.vnum p.2))) }
            [.probe "search_memories_semantic",
             .callSearchSemantic inp.search_query inp.limit (parseCommaList inp.memory_types)]
            hana
          refine ⟨by rw [h3.2.1, h3.1], ?_⟩
          rw [h3.2.2]
          rw [show (afterSearch inp mi
            { st with search_results :=
                rs.map (fun p => Data.mk (pySet p.1 "similarity_score" (PyVal.vnum p.2))) }
            [.probe "search_memories_semantic",
             .callSearchSemantic inp.search_query inp.limit (parseCommaList inp.memory_types)]).1 =
              rs.map (fun p => Data.mk (pySet p.1 "similarity_score" (PyVal.vnum p.2)))
            from h3.1]
      · rw [hsem]
        simp only [if_true, hhas, Bool.false_eq_true, if_false]
        exact keywordSearch_ok inp mi st _ _ (hkw1 (by simp [hhas])) hana
    · simp only [hsem, Bool.false_eq_true, if_false]
      exact keywordSearch_ok inp mi st _ _ (hkw1 (by simp [hsem])) hana
  refine ⟨key.1, key.2, ?_, ?_⟩
  · unfold getResultCount
    dsimp only
    rw [key.1]
  · intro hn
    unfold getFormattedResults
    dsimp only
    rw [key.1]
    rw [if_neg (by intro hnil; exact hn (by rw [hnil]; rfl))]
    exact ⟨"\n\n" ++ String.join (formatEntriesFrom 1 (searchMemories inp st).1),
      (String.append_assoc _ _ _)⟩

/-- Concrete search inputs taking the semantic branch with analytics on. -/
def semSearchInputs : SearchInputs := ⟨"tea", "u1", "", "", 5, true, true, some okInst⟩

theorem result_outputs_agree_witness :
    (searchMemories semSearchInputs initSearchState).2.1.search_results =
      (searchMemories semSearchInputs initSearchState).1
    ∧ (searchMemories semSearchInputs initSearchState).2.1.status =
      foundMsg (searchMemories semSearchInputs initSearchState).1.length
    ∧ (getResultCount semSearchInputs initSearchState).1.text =
      toString (searchMemories semSearchInputs initSearchState).1.length
    ∧ ((searchMemories semSearchInputs initSearchState).1.length ≠ 0 →
        ∃ rest, (getFormattedResults semSearchInputs initSearchState).1.text =
          s!"Found {(searchMemories semSearchInputs initSearchState).1.length} memories:" ++
            rest) :=
  result_outputs_agree semSearchInputs okInst initSearchState rfl (by decide)
    ⟨fun _ => rfl, fun _ => rfl, fun _ => rfl⟩

/-- A memory instance whose keyword search succeeds with two records but whose
analytics call raises. -/
def anaFailInst : MemoryInstance where
  has_search_memories_semantic := false
  search_memories_semantic := fun _ _ _ => .error "unused"
  search_memories := fun _ _ _ => .ok [demoRecord, demoRecord]
  has_get_memory_analytics := true
  get_memory_analytics := .error "boom"
  has_add_memory := false
  add_memory := fun _ _ _ _ => .error "unused"
  has_store_memory := false
  store_memory := fun _ _ _ _ _ _ _ => .error "unused"
  has_memory_store := false
  memory_store_memories := []
  save_context := fun _ _ => .error "unused"
  load_memory_variables := fun _ => .error "unused"
  memory_key := "history"
  get_timestamp := .error "unused"

/-- Concrete search inputs whose analytics fetch raises after a successful search. -/
def anaFailSearchInputs : SearchInputs :=
  ⟨"tea", "u1", "", "", 5, false, true, some anaFailInst⟩

/-- C7 counterexample: a call on the external memory object
(`get_memory_analytics`) raises partway through the search after the search
call itself succeeded with two records; the operation reports the error and
returns `[]`, yet the two fetched records stay cached — `get_result_count`
renders "2" (not zero) and `get_formatted_results` does not report that no
memories were found. -/
theorem analytics_failure_partial_effect_cex :
    (searchMemories anaFailSearchInputs initSearchState).1 = []
    ∧ (searchMemories anaFailSearchInputs initSearchState).2.1.status =
        "Error searching memories: boom"
    ∧ (getResultCount anaFailSearchInputs initSearchState).1.text = "2"
    ∧ (getResultCount anaFailSearchInputs initSearchState).1.text ≠ "0"
    ∧ (getFormattedResults anaFailSearchInputs initSearchState).1.text ≠
        "No memories found for the given query." :=
  ⟨rfl, rfl, rfl, by decide, by decide⟩

/-- C7 amended: when the dispatched search call itself raises, no partial
effect is observable from a fresh component: the cached results stay empty (as
if the operation did not happen), `get_result_count` reports zero and
`get_formatted_results` reports that no memories were found.  (When the later
`get_memory_analytics` call raises instead, the freshly fetched results remain
cached and are reported — see the counterexample.) -/
theorem search_failure_no_partial_effect (inp : SearchInputs) (mi : MemoryInstance)
    (e : String) (hmi : inp.memory_instance = some mi)
    (hfail : ((inp.semantic_search = true ∧ mi.has_search_memories_semantic = true) ∧
        mi.search_memories_semantic inp.search_query inp.limit
          (parseCommaList inp.memory_types) = .error e)
      ∨ (¬(inp.semantic_search = true ∧ mi.has_search_memories_semantic = true) ∧
        mi.search_memories inp.search_query (some (parseCommaList inp.memory_types))
          inp.limit = .error e)) :
    (searchMemories inp initSearchState).1 = []
    ∧ (searchMemories inp initSearchState).2.1.search_results = []
    ∧ (getResultCount inp initSearchState).1.text = "0"
    ∧ (getFormattedResults inp initSearchState).1.text =
        "No memories found for the given query." := by
  have key : (searchMemories inp initSearchState).1 = []
      ∧ (searchMemories inp initSearchState).2.1.search_results = [] := by
    unfold searchMemories
    rw [hmi]
    by_cases hq : inp.search_query = ""
    · simp [hq, initSearchState]
    · simp only [if_neg hq]
      rcases hfail with ⟨⟨hsem, hhas⟩, herr⟩ | ⟨hns, herr⟩
      · rw [hsem, hhas]
        simp only [if_true]
        rw [herr]
        simp [initSearchState]
      · have h : inp.semantic_search = false ∨
            (inp.semantic_search = true ∧ mi.has_search_memories_semantic = false) := by
          cases hs : inp.semantic_search
          · exact Or.inl rfl
          · cases hh : mi.has_search_memories_semantic
            · exact Or.inr ⟨rfl, rfl⟩
            · exact absurd ⟨hs, hh⟩ hns
        have hk : (keywordSearch inp mi initSearchState (parseCommaList inp.memory_types)
              [.probe "search_memories_semantic"]).1 = []
            ∧ (keywordSearch inp mi initSearchState (parseCommaList inp.memory_types)
              [.probe "search_memories_semantic"]).2.1.search_results = [] := by
          unfold keywordSearch
          rw [herr]
          simp [initSearchState]
        have hk0 : (keywordSearch inp mi initSearchState (parseCommaList inp.memory_types)
              []).1 = []
            ∧ (keywordSearch inp mi initSearchState (parseCommaList inp.memory_types)
              []).2.1.search_results = [] := by
          unfold keywordSearch
          rw [herr]
          simp [initSearchState]
        rcases h with hs | ⟨hs, hh⟩
        · rw [hs]
          simpa using hk0
        · rw [hs, hh]
          simpa using hk
  refine ⟨key.1, key.2, ?_, ?_⟩
  · unfold getResultCount
    dsimp only
    rw [key.2]
    rfl
  · unfold getFormattedResults
    dsimp only
    rw [key.2]
    rfl

/-- A memory instance whose keyword search raises. -/
def searchFailInst : MemoryInstance :=
  { anaFailInst with search_memories := fun _ _ _ => .error "db down" }

/-- Concrete search inputs whose keyword search call raises. -/
def searchFailInputs : SearchInputs :=
  ⟨"tea", "u1", "", "", 5, false, false, some searchFailInst⟩

theorem search_failure_no_partial_effect_witness :
    (searchMemories searchFailInputs initSearchState).1 = []
    ∧ (searchMemories searchFailInputs initSearchState).2.1.search_results = []
    ∧ (getResultCount searchFailInputs initSearchState).1.text = "0"
    ∧ (getFormattedResults searchFailInputs initSearchState).1.text =
        "No memories found for the given query." :=
  search_failure_no_partial_effect searchFailInputs searchFailInst "db down" rfl
    (Or.inr ⟨by decide, rfl⟩)


/-- A memory instance whose `save_context` raises. -/
def saveFailInst : MemoryInstance :=
  { okInst with save_context := fun _ _ => .error "boom" }

/-- Concrete memory-component inputs: existing instance whose `save_context`
raises while processing a non-empty message. -/
def saveFailMemInputs : MemoryCompInputs :=
  ⟨"s1", "u1", "hi", true, true, 5, [], some saveFailInst⟩

/-- C3 counterexample: when `save_context` on the external memory object
raises, `build_memory` catches it inside `_process_message` and sets the
status to the error text, but still returns the memory instance — not an
empty/default value. -/
theorem build_memory_error_returns_instance_cex :
    (buildMemory none cemDemo saveFailMemInputs initMemoryCompState).2.1.status =
      "Error processing message: boom"
    ∧ (buildMemory none cemDemo saveFailMemInputs initMemoryCompState).1 = some saveFailInst
    ∧ (buildMemory none cemDemo saveFailMemInputs initMemoryCompState).1 ≠ none := by
  refine ⟨rfl, rfl, ?_⟩
  intro h
  rw [show (buildMemory none cemDemo saveFailMemInputs initMemoryCompState).1 =
    some saveFailInst from rfl] at h
  exact Option.noConfusion h

/-- C3 amended: every adapter operation catches an exception raised by the
external call, sets its status to a human-readable string containing the
exception text, and `search_memories` returns `[]` while `store_memory`
returns an empty `Data`; `build_memory`, however, returns the default value
(`None`) only when creating the memory instance raises — when a memory-object
call raises during message processing it sets the status but still returns the
memory instance. -/
theorem error_status_and_default_returns :
    (∀ (inp : SearchInputs) (mi : MemoryInstance) (st : SearchState) (e : String),
      inp.memory_instance = some mi → ¬(inp.search_query = "") →
      inp.semantic_search = true → mi.has_search_memories_semantic = true →
      mi.search_memories_semantic inp.search_query inp.limit
        (parseCommaList inp.memory_types) = .error e →
      (searchMemories inp st).1 = [] ∧ (searchMemories inp st).2.1.status = errSearchMsg e)
    ∧ (∀ (inp : SearchInputs) (mi : MemoryInstance) (st : SearchState) (e : String),
      inp.memory_instance = some mi → ¬(inp.search_query = "") →
      ¬(inp.semantic_search = true ∧ mi.has_search_memories_semantic = true) →
      mi.search_memories inp.search_query (some (parseCommaList inp.memory_types))
        inp.limit = .error e →
      (searchMemories inp st).1 = [] ∧ (searchMemories inp st).2.1.status = errSearchMsg e)
    ∧ (∀ (inp : StoreInputs) (mi : MemoryInstance) (st : StoreState) (e : String),
      inp.memory_instance = some mi → ¬(inp.content = "") →
      mi.has_add_memory = true →
      mi.add_memory inp.content inp.memory_type inp.metadata (parseCommaList inp.tags) =
        .error e →
      (storeMemory inp st).1 = Data.mk []
        ∧ (storeMemory inp st).2.1.storage_status = errStoreMsg e)
    ∧ (∀ (inp : StoreInputs) (mi : MemoryInstance) (st : StoreState) (e : String),
      inp.memory_instance = some mi → ¬(inp.content = "") →
      mi.has_add_memory = false → mi.has_store_memory = true →
      mi.store_memory inp.user_id inp.content inp.memory_type inp.session_id
        inp.metadata (parseCommaList inp.tags) inp.relevance_score = .error e →
      (storeMemory inp st).1 = Data.mk []
        ∧ (storeMemory inp st).2.1.storage_status = errStoreMsg e)
    ∧ (∀ (cem : String → String → Bool → Except String MemoryInstance)
        (inp : MemoryCompInputs) (m : MemoryInstance) (st : MemoryCompState) (e : String),
      inp.existing_memory = some m → ¬(inp.message = "") →
      m.save_context (contextInputs inp) [("output", PyVal.vstr "")] = .error e →
      (buildMemory none cem inp st).2.1.status = errProcessMsg e
        ∧ (buildMemory none cem inp st).1 = some m)
    ∧ (∀ (cem : String → String → Bool → Except String MemoryInstance)
        (inp : MemoryCompInputs) (st : MemoryCompState) (e : String),
      inp.existing_memory = none →
      cem inp.session_id inp.user_id inp.extract_memories = .error e →
      (buildMemory none cem inp st).2.1.status = errBuildMsg e
        ∧ (buildMemory none cem inp st).1 = none) := by
  refine ⟨?_, ?_, ?_, ?_, ?_, ?_⟩
  · intro inp mi st e hmi hq hsem hhas herr
    unfold searchMemories
    rw [hmi]
    simp only [if_neg hq]
    rw [hsem, hhas]
    simp only [if_true]
    rw [herr]
    exact ⟨rfl, rfl⟩
  · intro inp mi st e hmi hq hns herr
    unfold searchMemories
    rw [hmi]
    simp only [if_neg hq]
    have hkey : (keywordSearch inp mi st (parseCommaList inp.memory_types)
          [.probe "search_memories_semantic"]).1 = []
        ∧ (keywordSearch inp mi st (parseCommaList inp.memory_types)
          [.probe "search_memories_semantic"]).2.1.status = errSearchMsg e := by
      unfold keywordSearch
      rw [herr]
      exact ⟨rfl, rfl⟩
    have hkey0 : (keywordSearch inp mi st (parseCommaList inp.memory_types) []).1 = []
        ∧ (keywordSearch inp mi st (parseCommaList inp.memory_types) []).2.1.status =
          errSearchMsg e := by
      unfold keywordSearch
      rw [herr]
      exact ⟨rfl, rfl⟩
    have h : inp.semantic_search = false ∨
        (inp.semantic_search = true ∧ mi.has_search_memories_semantic = false) := by
      cases hs : inp.semantic_search
      · exact Or.inl rfl
      · cases hh : mi.has_search_memories_semantic
        · exact Or.inr ⟨rfl, rfl⟩
        · exact absurd ⟨hs, hh⟩ hns
    rcases h with hs | ⟨hs, hh⟩
    · rw [hs]
      simpa using hkey0
    · rw [hs, hh]
      simpa using hkey
  · intro inp mi st e hmi hc hadd herr
    unfold storeMemory
    rw [hmi]
    simp only [if_neg hc]
    rw [hadd]
    simp only [if_true]
    rw [herr]
    exact ⟨rfl, rfl⟩
  · intro inp mi st e hmi hc hadd hsm herr
    unfold storeMemory
    rw [hmi]
    simp only [if_neg hc]
    rw [hadd, hsm]
    simp only [Bool.false_eq_true, if_false, if_true]
    rw [herr]
    exact ⟨rfl, rfl⟩
  · intro cem inp m st e hm hmsg herr
    unfold buildMemory
    rw [hm]
    simp only [if_neg hmsg]
    unfold processMessage
    dsimp only
    simp only [if_neg hmsg]
    rw [herr]
    exact ⟨rfl, rfl⟩
  · intro cem inp st e hn herr
    unfold buildMemory
    rw [hn, herr]
    exact ⟨rfl, rfl⟩

/-- An external factory call that raises. -/
def cemFail : String → String → Bool → Except String MemoryInstance :=
  fun _ _ _ => .error "import broken"

/-- Concrete memory-component inputs with no existing instance. -/
def noExistingMemInputs : MemoryCompInputs := ⟨"s1", "u1", "", true, true, 5, [], none⟩

theorem error_status_and_default_returns_witness :
    (buildMemory none cemFail noExistingMemInputs initMemoryCompState).2.1.status =
      errBuildMsg "import broken"
    ∧ (buildMemory none cemFail noExistingMemInputs initMemoryCompState).1 = none :=
  error_status_and_default_returns.2.2.2.2.2 cemFail noExistingMemInputs
    initMemoryCompState "import broken" rfl rfl


theorem buildMemory_trace_events (ie : Option String)
    (cem : String → String → Bool → Except String MemoryInstance)
    (inp : MemoryCompInputs) (st : MemoryCompState) :
    ∀ ev ∈ (buildMemory ie cem inp st).2.2,
      (∃ s u x, ev = .callCreateEliza s u x)
      ∨ (∃ i o, ev = .callSaveContext i o) ∨ (∃ q m l, ev = .callSearch q m l)
      ∨ (∃ i, ev = .callLoadMemoryVariables i) ∨ ev = .readMemoryKey
      ∨ ev = .callGetTimestamp := by
  intro ev h
  unfold buildMemory at h
  rcases ie with _ | e
  · rcases hex : inp.existing_memory with _ | m
    · rw [hex] at h
      rcases hc : cem inp.session_id inp.user_id inp.extract_memories with e | m
      · rw [hc] at h
        simp only [List.mem_singleton] at h
        exact Or.inl ⟨_, _, _, h⟩
      · rw [hc] at h
        dsimp only at h
        by_cases hmsg : inp.message = ""
        · simp only [hmsg, if_pos] at h
          simp only [List.mem_singleton] at h
          exact Or.inl ⟨_, _, _, h⟩
        · simp only [if_neg hmsg] at h
          rw [List.singleton_append] at h
          rcases List.mem_cons.mp h with h | h
          · exact Or.inl ⟨_, _, _, h⟩
          · exact Or.inr (processMessage_trace_events inp _ ev h)
    · rw [hex] at h
      dsimp only at h
      by_cases hmsg : inp.message = ""
      · simp [hmsg] at h
      · simp only [if_neg hmsg] at h
        exact Or.inr (processMessage_trace_events inp _ ev h)
  · simp at h

/-- The seven members of the external memory object the spec lists. -/
def specMembers : List String :=
  ["save_context", "load_memory_variables", "search_memories",
   "search_memories_semantic", "add_memory", "store_memory", "get_memory_analytics"]

/-- C5 counterexample: processing a message invokes `_get_timestamp()` on the
external memory object and reads its `memory_key` attribute — members outside
the claimed seven-method set. -/
theorem accessed_members_cex :
    MemEvent.callGetTimestamp
        ∈ (buildMemory none cemDemo existingMemInputs initMemoryCompState).2.2
    ∧ MemEvent.callGetTimestamp.memberName = some "_get_timestamp"
    ∧ "_get_timestamp" ∉ specMembers
    ∧ MemEvent.readMemoryKey
        ∈ (buildMemory none cemDemo existingMemInputs initMemoryCompState).2.2
    ∧ MemEvent.readMemoryKey.memberName = some "memory_key"
    ∧ "memory_key" ∉ specMembers :=
  ⟨by decide, rfl, by decide, by decide, rfl, by decide⟩

/-- The members of the external memory object the fragment actually accesses. -/
def allowedMembers : List String :=
  ["save_context", "load_memory_variables", "search_memories",
   "search_memories_semantic", "add_memory", "store_memory", "get_memory_analytics",
   "memory_store", "memory_key", "_get_timestamp"]

/-- A memory instance exposing only the `store_memory`-shaped API. -/
def storeOnlyInst : MemoryInstance := { okInst with has_add_memory := false }

/-- Concrete store inputs hitting the `store_memory` branch. -/
def storeOnlyInputs : StoreInputs :=
  ⟨"c", "u", "s", "general", "", [], 1, true, some storeOnlyInst⟩

/-- C5 amended: the members the fragment accesses on the external memory
object are exactly `save_context`, `load_memory_variables`, `search_memories`,
`search_memories_semantic`, `add_memory`, `store_memory`,
`get_memory_analytics`, `memory_store` (probed and read, with its `memories`
attribute), `memory_key` and `_get_timestamp`: every access by any adapter
operation is one of these ten, and concrete invocations of the three
operations together touch all ten. -/
theorem accessed_members_amended :
    (∀ (inp : SearchInputs) (st : SearchState) (ev : MemEvent),
      ev ∈ (searchMemories inp st).2.2 → ∀ n, ev.memberName = some n →
        n ∈ allowedMembers)
    ∧ (∀ (inp : StoreInputs) (st : StoreState) (ev : MemEvent),
      ev ∈ (storeMemory inp st).2.2 → ∀ n, ev.memberName = some n →
        n ∈ allowedMembers)
    ∧ (∀ (ie : Option String) (cem : String → String → Bool → Except String MemoryInstance)
        (inp : MemoryCompInputs) (st : MemoryCompState) (ev : MemEvent),
      ev ∈ (buildMemory ie cem inp st).2.2 → ∀ n, ev.memberName = some n →
        n ∈ allowedMembers)
    ∧ (∀ n ∈ allowedMembers, n ∈
        ((searchMemories semSearchInputs initSearchState).2.2 ++
         (searchMemories kwSearchInputs initSearchState).2.2 ++
         (storeMemory addStoreInputs initStoreState).2.2 ++
         (storeMemory storeOnlyInputs initStoreState).2.2 ++
         (buildMemory none cemDemo existingMemInputs initMemoryCompState).2.2).filterMap
           MemEvent.memberName) := by
  refine ⟨?_, ?_, ?_, by decide⟩
  · intro inp st ev hmem n hn
    rcases searchMemories_trace_events inp st ev hmem with
      h | ⟨q, l, m, h⟩ | ⟨q, m, l, h⟩ | h | h <;> subst h <;>
      simp only [MemEvent.memberName, Option.some_inj] at hn <;> subst hn <;> decide
  · intro inp st ev hmem n hn
    rcases storeMemory_trace_events inp st ev hmem with
      h | ⟨c, m, md, tg, h⟩ | h | h | h | ⟨u, c, m, s, md, tg, r, h⟩ <;> subst h <;>
      simp only [MemEvent.memberName, Option.some_inj] at hn <;> subst hn <;> decide
  · intro ie cem inp st ev hmem n hn
    rcases buildMemory_trace_events ie cem inp st ev hmem with
      ⟨s, u, x, h⟩ | ⟨i, o, h⟩ | ⟨q, m, l, h⟩ | ⟨i, h⟩ | h | h <;> subst h <;>
      simp only [MemEvent.memberName, Option.some_inj] at hn
    case _ => exact absurd hn (by simp)
    all_goals (subst hn; decide)

theorem accessed_members_amended_witness :
    MemEvent.callSaveContext (contextInputs existingMemInputs) [("output", PyVal.vstr "")]
        ∈ (buildMemory none cemDemo existingMemInputs initMemoryCompState).2.2
    ∧ "save_context" ∈ allowedMembers :=
  ⟨by decide,
    accessed_members_amended.2.2.1 none cemDemo existingMemInputs initMemoryCompState
      (MemEvent.callSaveContext (contextInputs existingMemInputs)
        [("output", PyVal.vstr "")])
      (by decide) "save_context" rfl⟩


end Eliza
